import Mathlib

/-!
Shallow embedding of the forum application's event fan-out and
connection-lifecycle subsystem (api/sse.js, api/forums.js, api/messages.js,
api/auth.js, all in their "Upgraded v2.0" form, which is the operative
version of each endpoint; the older duplicate files implement the same
queue and registry operations).  The Redis/Vercel-KV store is modelled as a
record of typed key families, and every handler becomes a pure state
transformer on it.  Wall-clock time is an explicit Nat parameter; the only
key expiry that any verified property depends on is the one on typing
indicator keys, so that is the only TTL modelled (queue and metadata TTLs
are recorded in comments where the source sets them).
-/

namespace ForumApp

/-- Display names are JS strings manipulated character by character
(trim, replace, toLowerCase), so they are modelled as character lists. -/
abbrev Name := List Char

/-- Metadata record stored at key sse:connection:CONNID
(api/sse.js v2, registration block).  The source stores it with a one-hour
TTL; no claim exercises that expiry, so it is not modelled. -/
structure ConnMeta where
  userId : String
  connectedAt : Nat
  lastHeartbeat : Nat
  userAgent : String
deriving DecidableEq, Repr

/-- User record stored at key user:USERID (api/auth.js).  Fields that no
claim reads (aboutMe, interests, profile, preferences, stats,
messageCount) are omitted. -/
structure User where
  id : String
  displayName : Name
  isOnline : Bool
  lastActive : Nat
  discussionsJoined : List String
deriving DecidableEq, Repr

/-- Forum record stored at key forum:FORUMID (api/forums.js v2). -/
structure Forum where
  id : String
  title : String
  topic : String
  hostId : String
  lastActivity : Nat
deriving DecidableEq, Repr

/-- One typing-indicator key typing:FORUM:USER, written by
redis.setex with a short TTL; expiresAt is the absolute expiry instant
(write time + TTL).  The key is live at time t iff t < expiresAt. -/
structure TypingEntry where
  forum : String
  user : String
  name : Name
  expiresAt : Nat
deriving DecidableEq, Repr

/-- Domain events, the tagged variants produced by the handlers and
carried (JSON-serialized, which round-trips losslessly) through the
per-connection queues. -/
inductive Event where
  | connected (connectionId : String) (userId : String) (userName : Name)
  | message (roomId : String) (messageId : String) (userId : String)
      (userName : Name) (text : String)
  | messageEdited (roomId : String) (messageId : String) (text : String)
  | messageDeleted (roomId : String) (messageId : String)
  | userJoined (roomId : String) (userId : String) (userName : Name)
      (participants : Nat)
  | userLeft (roomId : String) (userId : String) (userName : Name)
      (participants : Nat)
  | typing (roomId : String) (userId : String) (userName : Name)
      (isTyping : Bool)
  | typingUpdate (roomId : String) (typingUsers : List (String × Name))
  | forumCreated (forumId : String)
deriving DecidableEq, Repr

/-- The shared store.  Each field is one Redis key or key family:
connections is the set sse:connections, connMeta the keys
sse:connection:ID, queues the lists sse:queue:ID with the head being the
most recent LPUSH, users the keys user:ID, usersSet the set users,
activeUsers the set activeUsers, userForums the sets user:ID:forums,
forumParticipants the sets forum:ID:participants, forums the keys
forum:ID and typing the keys typing:FORUM:USER. -/
@[ext]
structure Store where
  connections : List String
  connMeta : String → Option ConnMeta
  queues : String → List Event
  users : String → Option User
  usersSet : List String
  activeUsers : List String
  userForums : String → List String
  forumParticipants : String → List String
  forums : String → Option Forum
  typing : List TypingEntry

/-- The store with no keys. -/
def emptyStore : Store where
  connections := []
  connMeta := fun _ => none
  queues := fun _ => []
  users := fun _ => none
  usersSet := []
  activeUsers := []
  userForums := fun _ => []
  forumParticipants := fun _ => []
  forums := fun _ => none
  typing := []

/-- Redis SADD on a set modelled as a duplicate-free list. -/
def sadd (l : List String) (x : String) : List String :=
  if x ∈ l then l else x :: l

/-- Redis SREM: removes every occurrence of the member. -/
def srem (l : List String) (x : String) : List String :=
  l.filter (fun y => y ≠ x)

/-- One enqueue step: redis.lpush of the serialized event onto
sse:queue:CONNID, the loop body of broadcastEvent (api/messages.js,
lines 131-137 of the original version; the v2 broadcasters do the same
push).  LPUSH prepends, so the head of the list is the newest event. -/
def enqueue (st : Store) (connId : String) (e : Event) : Store :=
  { st with queues := Function.update st.queues connId (e :: st.queues connId) }

/-- A sequence of enqueue calls, first list element first. -/
def enqueueAll (st : Store) (connId : String) (es : List Event) : Store :=
  es.foldl (fun s e => enqueue s connId e) st

/-- One drain cycle of the messageCheck timer (api/sse.js, lines 33-48 of
the original version; identical queue handling at lines 72-104 of v2):
lrange of sse:queue:CONNID from 0 to -1, the returned events are written
to the client in the returned order, and, when the batch was nonempty,
the key is deleted.  Returns the delivered sequence and the new store. -/
def drainAll (st : Store) (connId : String) : List Event × Store :=
  let messages := st.queues connId
  if messages.length > 0 then
    (messages, { st with queues := Function.update st.queues connId [] })
  else
    ([], st)

namespace Forums

/-- broadcastEvent of api/forums.js v2 (lines 250-270): smembers of
sse:connections, then for every member an lpush of the serialized event
onto that member's queue (the source also refreshes a one-hour TTL on the
queue key, which is not modelled). -/
def broadcastEvent (st : Store) (e : Event) : Store :=
  st.connections.foldl
    (fun s connId =>
      { s with queues := Function.update s.queues connId (e :: s.queues connId) })
    st

end Forums

namespace Messages

/-- One iteration of the fan-out loop of broadcastEvent in api/messages.js
v2 (lines 627-653): the lpush onto the member's queue may fail (its key
vanished, transient store error); on failure the member is removed from
sse:connections and nothing is enqueued, otherwise the event is pushed
(the 30-minute TTL refresh on the queue key is not modelled).  fails
records which connections' enqueue attempt throws. -/
def bstep (e : Event) (fails : String → Bool) (s : Store) (connId : String) : Store :=
  if fails connId then
    { s with connections := srem s.connections connId }
  else
    { s with queues := Function.update s.queues connId (e :: s.queues connId) }

/-- broadcastEvent of api/messages.js v2 (lines 627-653): the member list
is read once, then every member is processed by bstep; Promise.allSettled
semantics mean one member's failure never aborts the others. -/
def broadcastEvent (st : Store) (e : Event) (fails : String → Bool) : Store :=
  st.connections.foldl (bstep e fails) st

end Messages

/-- Registration block of the SSE handler (api/sse.js v2, lines 29-38):
sadd of the new id onto sse:connections plus storing the metadata record
(the source gives the record a one-hour TTL, not modelled). -/
def registerConnection (st : Store) (connId : String) (userId : String)
    (now : Nat) (userAgent : String) : Store :=
  { st with
    connections := sadd st.connections connId
    connMeta := Function.update st.connMeta connId
      (some { userId := userId, connectedAt := now, lastHeartbeat := now,
              userAgent := userAgent }) }

/-- The deregistration triple of cleanupConnection (api/sse.js v2,
lines 181-185, and the close handler of the original version at
lines 51-58): srem from sse:connections, del of the metadata record,
del of the pending queue. -/
def deregister (st : Store) (connId : String) : Store :=
  { st with
    connections := srem st.connections connId
    connMeta := Function.update st.connMeta connId none
    queues := Function.update st.queues connId [] }

/-- The has-other-active-connections scan of cleanupConnection
(api/sse.js v2, lines 187-204): walk the live set and test whether some
member's metadata record names the given user as its owner (the loop
breaks on the first match; a member whose record is gone contributes
nothing). -/
def hasOtherConnections (st : Store) (userId : String) : Bool :=
  st.connections.any fun connId =>
    match st.connMeta connId with
    | some m => m.userId == userId
    | none => false

/-- cleanupConnection of api/sse.js v2 (lines 178-219): deregister the
connection, then, only when no remaining live connection's metadata names
the same user, flip the stored user record offline (stamping lastActive)
and srem the user from activeUsers. -/
def cleanupConnection (st : Store) (connId : String) (userId : String)
    (now : Nat) : Store :=
  let st1 := deregister st connId
  if hasOtherConnections st1 userId then st1
  else
    let st2 :=
      match st1.users userId with
      | some u =>
          { st1 with users := Function.update st1.users userId (some { u with isOnline := false, lastActive := now }) }
      | none => st1
    { st2 with activeUsers := srem st2.activeUsers userId }

/-- Outcome of a session-establishment request: the HTTP status used for a
rejection, the error payload, and the initial connected event streamed on
success. -/
structure SseResult where
  status : Nat
  error : Option String
  initialEvent : Option Event
deriving DecidableEq, Repr

namespace Sse

/-- Session establishment, handler of api/sse.js v2 (lines 5-56): a
missing or empty userId query parameter is rejected with 400 before
anything happens; a userId naming no stored user is rejected with 404
before anything happens; otherwise the externally generated connection id
is registered, the user is marked online and added to activeUsers, and
the connected event is emitted. -/
def handler (st : Store) (userIdQ : Option String) (connectionId : String)
    (now : Nat) (userAgent : String) : SseResult × Store :=
  match userIdQ with
  | none => ({ status := 400, error := some "User ID is required", initialEvent := none }, st)
  | some userId =>
    if userId = "" then
      ({ status := 400, error := some "User ID is required", initialEvent := none }, st)
    else
      match st.users userId with
      | none => ({ status := 404, error := some "User not found", initialEvent := none }, st)
      | some user =>
        let st1 := registerConnection st connectionId userId now userAgent
        let st2 :=
          { st1 with
            users := Function.update st1.users userId
              (some { user with isOnline := true, lastActive := now })
            activeUsers := sadd st1.activeUsers userId }
        ({ status := 200, error := none,
           initialEvent := some (.connected connectionId user.id user.displayName) }, st2)

end Sse

/-- The setex write of the typing POST branch of handleTypingIndicator
(api/messages.js v2, lines 506-516): the key typing:FORUM:USER is set to
the user's display name with the given TTL in seconds, replacing any
previous value and expiry for that key. -/
def setTypingIndicator (st : Store) (forumId : String) (userId : String)
    (name : Name) (ttl : Nat) (now : Nat) : Store :=
  { st with
    typing := { forum := forumId, user := userId, name := name,
                expiresAt := now + ttl } ::
      st.typing.filter fun en => ¬(en.forum = forumId ∧ en.user = userId) }

/-- The per-forum snapshot built by sendTypingUpdates (api/sse.js v2,
lines 141-176): redis.keys over typing:FORUMID:* yields the unexpired
keys of that forum; the receiving user's own key is skipped and each
remaining key contributes its user id and stored display name. -/
def typingSnapshot (st : Store) (now : Nat) (forumId : String)
    (selfId : String) : List (String × Name) :=
  (st.typing.filter fun en =>
      en.forum == forumId && decide (now < en.expiresAt) && en.user != selfId).map
    fun en => (en.user, en.name)

/-- sendTypingUpdates (api/sse.js v2, lines 141-176): for every forum the
user participates in, a typing_update event carrying the snapshot is
streamed when the snapshot is nonempty. -/
def sendTypingUpdates (st : Store) (now : Nat) (userId : String) : List Event :=
  (st.userForums userId).filterMap fun forumId =>
    let tu := typingSnapshot st now forumId userId
    if tu.isEmpty then none else some (.typingUpdate forumId tu)

/-- Result of a user-creation request (api/auth.js v2). -/
structure AuthResult where
  status : Nat
  error : Option String
deriving DecidableEq, Repr

namespace Auth

/-- JS String.prototype.trim on a character list: strip whitespace from
both ends. -/
def jsTrim (s : Name) : Name :=
  ((s.dropWhile Char.isWhitespace).reverse.dropWhile Char.isWhitespace).reverse

/-- The replace of every angle bracket by the empty string, the
sanitization step of handleCreateUser (api/auth.js v2, line 84). -/
def stripAngles (s : Name) : Name :=
  s.filter fun c => ¬(c = '<' ∨ c = '>')

/-- sanitizedName of handleCreateUser (api/auth.js v2, line 84): trim,
then drop angle brackets. -/
def sanitizeName (s : Name) : Name :=
  stripAngles (jsTrim s)

/-- JS String.prototype.toLowerCase, character by character. -/
def lowerName (s : Name) : Name :=
  s.map Char.toLower

/-- The duplicate scan of handleCreateUser (api/auth.js v2, lines 90-98):
walk the users set and compare each stored record's display name,
lowercased, with the lowercased sanitized request name (the loop returns
409 on the first match). -/
def duplicateName (st : Store) (sanitized : Name) : Bool :=
  st.usersSet.any fun uid =>
    match st.users uid with
    | some u => lowerName u.displayName == lowerName sanitized
    | none => false

/-- handleCreateUser of api/auth.js v2 (lines 66-154): validation on the
trimmed request name (nonempty, at least 2 and at most 50 characters),
sanitization, the case-insensitive duplicate scan, then creation of the
user record (stored under the externally generated id, added to the users
and activeUsers sets; the session key and its TTL are not modelled). -/
def handleCreateUser (st : Store) (displayName : Option Name) (newId : String)
    (now : Nat) : AuthResult × Store :=
  match displayName with
  | none => ({ status := 400, error := some "Display name is required" }, st)
  | some raw =>
    if (jsTrim raw).length = 0 then
      ({ status := 400, error := some "Display name is required" }, st)
    else if (jsTrim raw).length < 2 then
      ({ status := 400, error := some "Display name must be at least 2 characters long" }, st)
    else if 50 < (jsTrim raw).length then
      ({ status := 400, error := some "Display name must be less than 50 characters" }, st)
    else
      let sanitized := sanitizeName raw
      if duplicateName st sanitized then
        ({ status := 409, error := some "Display name already taken" }, st)
      else
        let user : User :=
          { id := newId, displayName := sanitized, isOnline := true,
            lastActive := now, discussionsJoined := [] }
        ({ status := 200, error := none },
         { st with
           users := Function.update st.users newId (some user)
           usersSet := sadd st.usersSet newId
           activeUsers := sadd st.activeUsers newId })

end Auth

/-- Result of a join request (api/forums.js v2): status, error payload,
and on success the stored forum record together with the current
participant count. -/
structure JoinResult where
  status : Nat
  error : Option String
  forum : Option Forum
  participants : Nat
deriving DecidableEq, Repr

namespace Forums

/-- handleJoinForum of api/forums.js v2 (lines 162-217): validate the
user id and both records, test membership of forum:ID:participants, and
only on the non-member to member transition add the user to the
participant set and to user:ID:forums, append the forum to the stored
discussionsJoined list, and broadcast a user_joined event carrying the
fresh scard; in every successful case the forum's lastActivity is
restamped and 200 is returned with the forum and the current count. -/
def handleJoinForum (st : Store) (forumId : String) (userIdQ : Option String)
    (now : Nat) : JoinResult × Store :=
  match userIdQ with
  | none => ({ status := 400, error := some "User ID is required",
               forum := none, participants := 0 }, st)
  | some userId =>
    match st.forums forumId, st.users userId with
    | none, _ => ({ status := 404, error := some "Forum not found",
                    forum := none, participants := 0 }, st)
    | some _, none => ({ status := 404, error := some "User not found",
                         forum := none, participants := 0 }, st)
    | some forum, some user =>
      let isAlreadyParticipant := userId ∈ st.forumParticipants forumId
      let st1 :=
        if isAlreadyParticipant then st
        else
          let stA :=
            { st with
              forumParticipants := Function.update st.forumParticipants forumId
                (sadd (st.forumParticipants forumId) userId)
              userForums := Function.update st.userForums userId
                (sadd (st.userForums userId) forumId) }
          if forumId ∈ user.discussionsJoined then stA
          else
            { stA with users := Function.update stA.users userId (some { user with discussionsJoined := user.discussionsJoined ++ [forumId] }) }
      let participants := (st1.forumParticipants forumId).length
      let forum' := { forum with lastActivity := now }
      let st2 := { st1 with forums := Function.update st1.forums forumId (some forum') }
      let st3 :=
        if isAlreadyParticipant then st2
        else broadcastEvent st2
          (.userJoined forumId userId user.displayName participants)
      ({ status := 200, error := none, forum := some forum',
         participants := participants }, st3)

end Forums

/-- One registry operation: a registration (api/sse.js v2, lines 29-38)
or a full disconnect cleanup (api/sse.js v2, lines 178-219). -/
inductive RegistryStep : Store → Store → Prop where
  | register (st : Store) (connId userId : String) (now : Nat) (userAgent : String) :
      RegistryStep st (registerConnection st connId userId now userAgent)
  | deregister (st : Store) (connId userId : String) (now : Nat) :
      RegistryStep st (cleanupConnection st connId userId now)

/-- Registry invariant: every member of the sse:connections live set has
a metadata record. -/
def RegistryInv (st : Store) : Prop :=
  ∀ connId ∈ st.connections, ∃ m, st.connMeta connId = some m

/-! Helper lemmas about the queue primitives. -/

/-- After a sequence of enqueues on a connection, that connection's queue
holds the enqueued events in reverse order (LPUSH prepends) in front of
whatever was queued before. -/
theorem enqueueAll_queues_self (st : Store) (c : String) (es : List Event) :
    (enqueueAll st c es).queues c = es.reverse ++ st.queues c := by
  induction es generalizing st with
  | nil => simp [enqueueAll]
  | cons e es ih =>
    have h : enqueueAll st c (e :: es) = enqueueAll (enqueue st c e) c es := rfl
    rw [h, ih]
    simp [enqueue]

/-- Enqueueing on one connection leaves every other queue unchanged. -/
theorem enqueueAll_queues_other (st : Store) (c c' : String) (es : List Event)
    (h : c' ≠ c) : (enqueueAll st c es).queues c' = st.queues c' := by
  induction es generalizing st with
  | nil => simp [enqueueAll]
  | cons e es ih =>
    have heq : enqueueAll st c (e :: es) = enqueueAll (enqueue st c e) c es := rfl
    rw [heq, ih]
    simp [enqueue, Function.update_noteq h]

/-- A drain delivers exactly the current content of the queue. -/
theorem drainAll_fst (st : Store) (c : String) :
    (drainAll st c).1 = st.queues c := by
  unfold drainAll
  by_cases h : (st.queues c).length > 0
  · simp [h]
  · have : st.queues c = [] := List.eq_nil_of_length_eq_zero (by omega)
    simp [h, this]

/-- After a drain the drained connection's queue is empty. -/
theorem drainAll_queues_self (st : Store) (c : String) :
    ((drainAll st c).2).queues c = [] := by
  unfold drainAll
  by_cases h : (st.queues c).length > 0
  · simp [h]
  · have : st.queues c = [] := List.eq_nil_of_length_eq_zero (by omega)
    simp [h, this]

/-- C1 (amended): for every connection C with an empty queue and every
sequence of enqueue calls on C (each an lpush of the serialized event
onto sse:queue:C) followed by one drain (lrange of sse:queue:C from 0 to
-1, events written out in the returned order, then del of the key), the
sequence of events delivered equals the REVERSE of the sequence enqueued
(most recently enqueued first, because lpush prepends and the drain
writes the list head first); and a second drain with no intervening
enqueues delivers nothing. -/
theorem drainAll_delivers_reverse (st : Store) (c : String) (es : List Event)
    (hq : st.queues c = []) :
    (drainAll (enqueueAll st c es) c).1 = es.reverse ∧
    (drainAll (drainAll (enqueueAll st c es) c).2 c).1 = [] := by
  constructor
  · rw [drainAll_fst, enqueueAll_queues_self, hq, List.append_nil]
  · rw [drainAll_fst, drainAll_queues_self]

/-- C1 witness: enqueueing two concrete events and draining delivers them
newest-first, and a second drain delivers nothing. -/
theorem drainAll_delivers_reverse_witness :
    (drainAll (enqueueAll emptyStore "c1"
        [Event.forumCreated "f1", Event.forumCreated "f2"]) "c1").1 =
      [Event.forumCreated "f2", Event.forumCreated "f1"] ∧
    (drainAll (drainAll (enqueueAll emptyStore "c1"
        [Event.forumCreated "f1", Event.forumCreated "f2"]) "c1").2 "c1").1 = [] :=
  drainAll_delivers_reverse emptyStore "c1"
    [Event.forumCreated "f1", Event.forumCreated "f2"] rfl

/-- C1 counterexample: two events enqueued in the order f1, f2 are
delivered as f2, f1, so the delivered sequence differs from the enqueued
sequence. -/
theorem drainAll_order_counterexample :
    (drainAll (enqueueAll emptyStore "c1"
        [Event.forumCreated "f1", Event.forumCreated "f2"]) "c1").1 ≠
      [Event.forumCreated "f1", Event.forumCreated "f2"] := by
  decide

/-- C5: a session-establishment request with no userId query parameter is
rejected with 400, and one whose userId names no stored user is rejected
with 404; in both cases the store is returned untouched, so no connection
id is registered, no entry is added to sse:connections and no metadata
record is created. -/
theorem sseHandler_rejects_invalid (st : Store) (connectionId : String)
    (now : Nat) (ua : String) :
    (Sse.handler st none connectionId now ua =
      ({ status := 400, error := some "User ID is required",
         initialEvent := none }, st)) ∧
    (∀ uid, uid ≠ "" → st.users uid = none →
      Sse.handler st (some uid) connectionId now ua =
        ({ status := 404, error := some "User not found",
           initialEvent := none }, st)) := by
  constructor
  · rfl
  · intro uid hne hnone
    simp [Sse.handler, hne, hnone]

/-- C5 witness: on the empty store, both rejections happen and the store
is unchanged. -/
theorem sseHandler_rejects_invalid_witness :
    Sse.handler emptyStore none "c1" 0 "ua" =
      ({ status := 400, error := some "User ID is required",
         initialEvent := none }, emptyStore) ∧
    Sse.handler emptyStore (some "u1") "c1" 0 "ua" =
      ({ status := 404, error := some "User not found",
         initialEvent := none }, emptyStore) :=
  ⟨(sseHandler_rejects_invalid emptyStore "c1" 0 "ua").1,
   (sseHandler_rejects_invalid emptyStore "c1" 0 "ua").2 "u1" (by decide) rfl⟩

/-- C8: deregistration removes the connection id from the sse:connections
live set and deletes its metadata record and its pending queue; it is
idempotent (deregister composed with itself equals a single deregister),
and applied to an id that is already completely absent it leaves the
store unchanged. -/
theorem deregister_idempotent :
    (∀ (st : Store) (c : String),
      c ∉ (deregister st c).connections ∧
      (deregister st c).connMeta c = none ∧
      (deregister st c).queues c = []) ∧
    (∀ (st : Store) (c : String),
      deregister (deregister st c) c = deregister st c) ∧
    (∀ (st : Store) (c : String),
      c ∉ st.connections → st.connMeta c = none → st.queues c = [] →
      deregister st c = st) := by
  refine ⟨?_, ?_, ?_⟩
  · intro st c
    refine ⟨?_, Function.update_same .., Function.update_same ..⟩
    simp [deregister, srem, List.mem_filter]
  · intro st c
    have hconn : srem (srem st.connections c) c = srem st.connections c := by
      simp [srem, List.filter_filter]
    have hmeta : Function.update (Function.update st.connMeta c none) c none =
        Function.update st.connMeta c none := Function.update_idem ..
    have hq : Function.update (Function.update st.queues c ([] : List Event)) c [] =
        Function.update st.queues c [] := Function.update_idem ..
    simp only [deregister]
    exact Store.ext hconn hmeta hq rfl rfl rfl rfl rfl rfl rfl
  · intro st c hc hm hq
    have hconn : srem st.connections c = st.connections :=
      List.filter_eq_self.mpr fun y hy => by
        simp only [decide_eq_true_eq]
        exact fun h => hc (h ▸ hy)
    have hmeta : Function.update st.connMeta c none = st.connMeta := by
      rw [← hm]; exact Function.update_eq_self ..
    have hq' : Function.update st.queues c [] = st.queues := by
      rw [← hq]; exact Function.update_eq_self ..
    simp only [deregister]
    exact Store.ext hconn hmeta hq' rfl rfl rfl rfl rfl rfl rfl

/-- C8 witness: on a concrete one-connection store, deregistration
empties the registry entries, is idempotent, and deregistering the
already-absent id again returns the store unchanged. -/
theorem deregister_idempotent_witness :
    "c1" ∉ (deregister (registerConnection emptyStore "c1" "u1" 0 "ua") "c1").connections ∧
    deregister (deregister (registerConnection emptyStore "c1" "u1" 0 "ua") "c1") "c1" =
      deregister (registerConnection emptyStore "c1" "u1" 0 "ua") "c1" ∧
    deregister emptyStore "c2" = emptyStore :=
  ⟨(deregister_idempotent.1 (registerConnection emptyStore "c1" "u1" 0 "ua") "c1").1,
   deregister_idempotent.2.1 (registerConnection emptyStore "c1" "u1" 0 "ua") "c1",
   deregister_idempotent.2.2 emptyStore "c2" (by decide) rfl rfl⟩

/-! Characterization of the broadcast fan-out loops. -/

/-- The fan-out fold of the forums broadcaster prepends the event to the
queue of exactly the snapshotted members. -/
theorem broadcast_foldl_queues (e : Event) :
    ∀ (l : List String) (s : Store) (c : String), l.Nodup →
      ((l.foldl (fun s connId =>
          { s with queues := Function.update s.queues connId (e :: s.queues connId) }) s).queues c)
        = if c ∈ l then e :: s.queues c else s.queues c := by
  intro l
  induction l with
  | nil => intro s c _; simp
  | cons a l ih =>
    intro s c hnd
    rw [List.nodup_cons] at hnd
    obtain ⟨ha, hnd⟩ := hnd
    rw [List.foldl_cons, ih _ c hnd]
    by_cases hc : c ∈ l
    · have hca : c ≠ a := fun h => ha (h ▸ hc)
      simp [hc, hca, Function.update_noteq hca]
    · by_cases hca : c = a
      · subst hca
        simp [hc, Function.update_same]
      · simp [hc, hca, Function.update_noteq hca]

/-- C2: broadcastEvent enqueues exactly one copy of the event on the
queue of every connection id that is a member of sse:connections at the
moment the member list is read, and on no other queue; and a connection
registered after that read receives no copy. -/
theorem broadcastEvent_exactly_once (st : Store) (e : Event)
    (hnd : st.connections.Nodup) :
    (∀ c, (Forums.broadcastEvent st e).queues c =
        if c ∈ st.connections then e :: st.queues c else st.queues c) ∧
    (∀ c, ((Forums.broadcastEvent st e).queues c).count e =
        (st.queues c).count e + (if c ∈ st.connections then 1 else 0)) ∧
    (∀ cNew userId now ua, cNew ∉ st.connections →
      (registerConnection (Forums.broadcastEvent st e) cNew userId now ua).queues cNew
        = st.queues cNew) := by
  have hmain : ∀ c, (Forums.broadcastEvent st e).queues c =
      if c ∈ st.connections then e :: st.queues c else st.queues c :=
    fun c => broadcast_foldl_queues e st.connections st c hnd
  refine ⟨hmain, ?_, ?_⟩
  · intro c
    rw [hmain c]
    by_cases hc : c ∈ st.connections
    · simp [hc]
    · simp [hc]
  · intro cNew userId now ua hnew
    have hro : (registerConnection (Forums.broadcastEvent st e) cNew userId now ua).queues
        = (Forums.broadcastEvent st e).queues := rfl
    rw [hro, hmain cNew, if_neg hnew]

/-- Concrete two-connection store used to witness the broadcasters. -/
def bcastStore : Store :=
  { emptyStore with connections := ["c1", "c2"] }

/-- C2 witness: on a concrete two-connection store the event lands once
on each registered queue, and a connection registered afterwards has an
empty queue. -/
theorem broadcastEvent_exactly_once_witness :
    (Forums.broadcastEvent bcastStore (Event.forumCreated "f1")).queues "c1" =
      [Event.forumCreated "f1"] ∧
    (Forums.broadcastEvent bcastStore (Event.forumCreated "f1")).queues "c9" = [] ∧
    (registerConnection (Forums.broadcastEvent bcastStore (Event.forumCreated "f1"))
        "c3" "u1" 0 "ua").queues "c3" = [] := by
  have h := broadcastEvent_exactly_once bcastStore (Event.forumCreated "f1") (by decide)
  refine ⟨?_, ?_, ?_⟩
  · have h1 := h.1 "c1"
    simpa [bcastStore, emptyStore] using h1
  · have h1 := h.1 "c9"
    simpa [bcastStore, emptyStore] using h1
  · have h3 := h.2.2 "c3" "u1" 0 "ua" (by decide)
    simpa [bcastStore, emptyStore] using h3

/-- Once absent from the live set, a connection stays absent through the
rest of the failure-aware fan-out loop. -/
theorem notMem_foldl_bstep (e : Event) (fails : String → Bool) :
    ∀ (l : List String) (s : Store) (c : String),
      c ∉ s.connections → c ∉ (l.foldl (Messages.bstep e fails) s).connections := by
  intro l
  induction l with
  | nil => intro s c hc; simpa using hc
  | cons a l ih =>
    intro s c hc
    rw [List.foldl_cons]
    refine ih _ c ?_
    unfold Messages.bstep
    by_cases hf : fails a
    · simp only [hf, if_true]
      intro hmem
      exact hc (List.mem_of_mem_filter hmem)
    · simpa [hf] using hc

/-- The failure-aware fan-out loop never changes the live-set membership
of a connection whose enqueue does not fail. -/
theorem mem_foldl_bstep_of_ok (e : Event) (fails : String → Bool) :
    ∀ (l : List String) (s : Store) (c : String), fails c = false →
      (c ∈ (l.foldl (Messages.bstep e fails) s).connections ↔ c ∈ s.connections) := by
  intro l
  induction l with
  | nil => intro s c _; simp
  | cons a l ih =>
    intro s c hok
    rw [List.foldl_cons, ih _ c hok]
    unfold Messages.bstep
    by_cases hf : fails a
    · have hca : c ≠ a := fun h => by rw [h, hf] at hok; simp at hok
      simp [hf, srem, List.mem_filter, hca]
    · simp [hf]

/-- A member whose enqueue fails has been removed from the live set by
the end of the failure-aware fan-out loop. -/
theorem fails_removed_foldl_bstep (e : Event) (fails : String → Bool) :
    ∀ (l : List String) (s : Store) (c : String), c ∈ l → fails c = true →
      c ∉ (l.foldl (Messages.bstep e fails) s).connections := by
  intro l
  induction l with
  | nil => intro s c hc; simp at hc
  | cons a l ih =>
    intro s c hc hf
    rw [List.foldl_cons]
    rcases List.mem_cons.mp hc with hca | hcl
    · subst hca
      refine notMem_foldl_bstep e fails l _ c ?_
      unfold Messages.bstep
      simp [hf, srem, List.mem_filter]
    · exact ih _ c hcl hf

/-- The failure-aware fan-out loop enqueues the event on exactly the
snapshotted members whose enqueue does not fail. -/
theorem foldl_bstep_queues (e : Event) (fails : String → Bool) :
    ∀ (l : List String) (s : Store) (c : String), l.Nodup →
      ((l.foldl (Messages.bstep e fails) s).queues c)
        = if c ∈ l ∧ fails c = false then e :: s.queues c else s.queues c := by
  intro l
  induction l with
  | nil => intro s c _; simp
  | cons a l ih =>
    intro s c hnd
    rw [List.nodup_cons] at hnd
    obtain ⟨ha, hnd⟩ := hnd
    rw [List.foldl_cons, ih _ c hnd]
    have hstep : (Messages.bstep e fails s a).queues c =
        if c = a ∧ fails c = false then e :: s.queues c else s.queues c := by
      unfold Messages.bstep
      by_cases hf : fails a
      · have : ¬(c = a ∧ fails c = false) := by
          rintro ⟨rfl, hok⟩; rw [hf] at hok; simp at hok
        simp [hf, this]
      · by_cases hca : c = a
        · subst hca
          simp [hf, Function.update_same]
        · simp [hf, hca, Function.update_noteq hca]
    by_cases hc : c ∈ l ∧ fails c = false
    · have hca : c ≠ a := fun h => ha (h ▸ hc.1)
      rw [if_pos hc, hstep, if_neg (fun h => hca h.1)]
      simp [List.mem_cons, hc.1, hc.2]
    · rw [if_neg hc, hstep]
      by_cases hca : c = a ∧ fails c = false
      · rw [if_pos hca]
        have : c ∈ a :: l ∧ fails c = false := ⟨List.mem_cons.mpr (Or.inl hca.1), hca.2⟩
        rw [if_pos this]
      · rw [if_neg hca]
        have : ¬(c ∈ a :: l ∧ fails c = false) := by
          rintro ⟨hmem, hok⟩
          rcases List.mem_cons.mp hmem with h | h
          · exact hca ⟨h, hok⟩
          · exact hc ⟨h, hok⟩
        rw [if_neg this]

/-- C4: during a broadcast, a failure to enqueue onto one connection's
queue does not prevent the event from reaching every other registered
connection's queue (all-settled semantics), and the failing connection id
is removed from sse:connections as a side effect, while non-failing
members stay registered. -/
theorem broadcastEvent_failure_isolation (st : Store) (e : Event)
    (fails : String → Bool) (hnd : st.connections.Nodup) :
    (∀ c ∈ st.connections, fails c = false →
      (Messages.broadcastEvent st e fails).queues c = e :: st.queues c ∧
      c ∈ (Messages.broadcastEvent st e fails).connections) ∧
    (∀ c ∈ st.connections, fails c = true →
      c ∉ (Messages.broadcastEvent st e fails).connections ∧
      (Messages.broadcastEvent st e fails).queues c = st.queues c) := by
  constructor
  · intro c hc hok
    constructor
    · rw [Messages.broadcastEvent, foldl_bstep_queues e fails st.connections st c hnd,
        if_pos ⟨hc, hok⟩]
    · exact (mem_foldl_bstep_of_ok e fails st.connections st c hok).mpr hc
  · intro c hc hf
    constructor
    · exact fails_removed_foldl_bstep e fails st.connections st c hc hf
    · rw [Messages.broadcastEvent, foldl_bstep_queues e fails st.connections st c hnd,
        if_neg (fun h => by rw [hf] at h; simp at h)]

/-- C4 witness: with two registered connections of which the second one's
enqueue fails, the first still receives the event and the second is
dropped from the live set with its queue untouched. -/
theorem broadcastEvent_failure_isolation_witness :
    (Messages.broadcastEvent bcastStore (Event.forumCreated "f1")
        (fun c => c == "c2")).queues "c1" = [Event.forumCreated "f1"] ∧
    "c2" ∉ (Messages.broadcastEvent bcastStore (Event.forumCreated "f1")
        (fun c => c == "c2")).connections ∧
    (Messages.broadcastEvent bcastStore (Event.forumCreated "f1")
        (fun c => c == "c2")).queues "c2" = [] := by
  have h := broadcastEvent_failure_isolation bcastStore (Event.forumCreated "f1")
    (fun c => c == "c2") (by decide)
  have h1 := h.1 "c1" (by decide) (by decide)
  have h2 := h.2 "c2" (by decide) (by decide)
  exact ⟨h1.1, h2.1, h2.2⟩

/-! Presence recomputation on disconnect. -/

/-- The scan of cleanupConnection over the post-removal live set finds a
match exactly when some other registered connection's metadata record
names the given user as its owner. -/
theorem hasOther_dereg_iff (st : Store) (c uid : String) :
    hasOtherConnections (deregister st c) uid = true ↔
      ∃ c' ∈ st.connections, c' ≠ c ∧
        (st.connMeta c').map ConnMeta.userId = some uid := by
  unfold hasOtherConnections
  rw [List.any_eq_true]
  constructor
  · rintro ⟨c', hc', hp⟩
    have hmem : c' ∈ st.connections.filter (fun y => y ≠ c) := hc'
    rw [List.mem_filter] at hmem
    obtain ⟨hmem, hne⟩ := hmem
    have hne' : c' ≠ c := by simpa using hne
    refine ⟨c', hmem, hne', ?_⟩
    have hmeta : (deregister st c).connMeta c' = st.connMeta c' :=
      Function.update_noteq hne' _ _
    rw [hmeta] at hp
    cases h : st.connMeta c' with
    | none => rw [h] at hp; exact absurd hp Bool.false_ne_true
    | some m =>
      rw [h] at hp
      change (m.userId == uid) = true at hp
      rw [beq_iff_eq] at hp
      simp [hp]
  · rintro ⟨c', hmem, hne, hmap⟩
    refine ⟨c', ?_, ?_⟩
    · show c' ∈ st.connections.filter (fun y => y ≠ c)
      rw [List.mem_filter]
      exact ⟨hmem, by simpa using hne⟩
    · have hmeta : (deregister st c).connMeta c' = st.connMeta c' :=
        Function.update_noteq hne _ _
      rw [hmeta]
      cases h : st.connMeta c' with
      | none => rw [h] at hmap; simp at hmap
      | some m =>
        rw [h] at hmap
        simp at hmap
        change (m.userId == uid) = true
        rw [beq_iff_eq]
        exact hmap

/-- C3: cleaning up a disconnected connection of user U marks U offline
and removes U from the activeUsers set exactly when no other registered
connection's metadata record names U as its owner; when another such
connection remains, U's record and activeUsers membership are untouched. -/
theorem cleanupConnection_presence (st : Store) (c uid : String) (now : Nat)
    (u : User) (hu : st.users uid = some u) :
    ((∃ c' ∈ st.connections, c' ≠ c ∧
        (st.connMeta c').map ConnMeta.userId = some uid) →
      (cleanupConnection st c uid now).activeUsers = st.activeUsers ∧
      (cleanupConnection st c uid now).users uid = some u) ∧
    ((¬ ∃ c' ∈ st.connections, c' ≠ c ∧
        (st.connMeta c').map ConnMeta.userId = some uid) →
      uid ∉ (cleanupConnection st c uid now).activeUsers ∧
      (cleanupConnection st c uid now).users uid =
        some { u with isOnline := false, lastActive := now }) := by
  constructor
  · intro hex
    have hoc : hasOtherConnections (deregister st c) uid = true :=
      (hasOther_dereg_iff st c uid).2 hex
    unfold cleanupConnection
    rw [if_pos hoc]
    exact ⟨rfl, hu⟩
  · intro hex
    have hoc : ¬ hasOtherConnections (deregister st c) uid = true :=
      fun h => hex ((hasOther_dereg_iff st c uid).1 h)
    unfold cleanupConnection
    rw [if_neg hoc]
    have husers : (deregister st c).users uid = some u := hu
    rw [husers]
    constructor
    · simp [srem, List.mem_filter]
    · exact Function.update_same ..

/-- Concrete user record for the presence scenario. -/
def userA : User :=
  { id := "A", displayName := "alice".toList, isOnline := true,
    lastActive := 0, discussionsJoined := [] }

/-- Concrete store in which user A owns the two live connections c1 and
c2, for the presence scenario. -/
def presenceStore : Store :=
  { emptyStore with
    connections := ["c1", "c2"]
    connMeta := fun cid =>
      if cid = "c1" then
        some { userId := "A", connectedAt := 0, lastHeartbeat := 0, userAgent := "ua" }
      else if cid = "c2" then
        some { userId := "A", connectedAt := 0, lastHeartbeat := 0, userAgent := "ua" }
      else none
    users := fun uid => if uid = "A" then some userA else none
    activeUsers := ["A"] }

/-- C3 witness, the scenario from the specification: with connections c1
and c2 both owned by user A, cleaning up c1 leaves A online and still in
activeUsers, and cleaning up c2 afterwards flips A offline and removes A
from activeUsers. -/
theorem cleanupConnection_presence_witness :
    ((cleanupConnection presenceStore "c1" "A" 5).activeUsers = ["A"] ∧
      (cleanupConnection presenceStore "c1" "A" 5).users "A" = some userA) ∧
    ("A" ∉ (cleanupConnection (cleanupConnection presenceStore "c1" "A" 5)
        "c2" "A" 9).activeUsers ∧
      (cleanupConnection (cleanupConnection presenceStore "c1" "A" 5)
          "c2" "A" 9).users "A" =
        some { userA with isOnline := false, lastActive := 9 }) := by
  have h1 := cleanupConnection_presence presenceStore "c1" "A" 5 userA (by decide)
  obtain ⟨ha1, hu1⟩ := h1.1 ⟨"c2", by decide, by decide, by decide⟩
  have h2 := cleanupConnection_presence (cleanupConnection presenceStore "c1" "A" 5)
    "c2" "A" 9 userA hu1
  obtain ⟨ha2, hu2⟩ := h2.2 (by decide)
  exact ⟨⟨by rw [ha1]; rfl, hu1⟩, ⟨ha2, hu2⟩⟩

/-! The registry invariant. -/

/-- Disconnect cleanup acts on the live set and the metadata records
exactly as the bare deregistration triple does; the presence branch only
touches user records and activeUsers. -/
theorem cleanupConnection_registry (st : Store) (c uid : String) (now : Nat) :
    (cleanupConnection st c uid now).connections = srem st.connections c ∧
    (cleanupConnection st c uid now).connMeta = Function.update st.connMeta c none := by
  unfold cleanupConnection
  by_cases h : hasOtherConnections (deregister st c) uid = true
  · rw [if_pos h]
    exact ⟨rfl, rfl⟩
  · rw [if_neg h]
    cases hh : (deregister st c).users uid <;> simp [deregister]

/-- A single register step preserves the registry invariant. -/
theorem registerConnection_inv (st : Store) (connId userId : String)
    (now : Nat) (ua : String) (hinv : RegistryInv st) :
    RegistryInv (registerConnection st connId userId now ua) := by
  intro c hc
  have hc' : c ∈ sadd st.connections connId := hc
  by_cases hca : c = connId
  · subst hca
    exact ⟨_, Function.update_same ..⟩
  · have hmem : c ∈ st.connections := by
      unfold sadd at hc'
      by_cases hmem0 : connId ∈ st.connections
      · rwa [if_pos hmem0] at hc'
      · rw [if_neg hmem0] at hc'
        rcases List.mem_cons.mp hc' with h | h
        · exact absurd h hca
        · exact h
    obtain ⟨m, hm⟩ := hinv c hmem
    exact ⟨m, by rw [show (registerConnection st connId userId now ua).connMeta
      = Function.update st.connMeta connId _ from rfl, Function.update_noteq hca, hm]⟩

/-- A single cleanup step preserves the registry invariant. -/
theorem cleanupConnection_inv (st : Store) (connId userId : String)
    (now : Nat) (hinv : RegistryInv st) :
    RegistryInv (cleanupConnection st connId userId now) := by
  intro c hc
  obtain ⟨hcon, hmeta⟩ := cleanupConnection_registry st connId userId now
  rw [hcon] at hc
  simp only [srem, List.mem_filter, decide_eq_true_eq] at hc
  obtain ⟨hmem, hne'⟩ := hc
  obtain ⟨m, hm⟩ := hinv c hmem
  exact ⟨m, by rw [hmeta, Function.update_noteq hne', hm]⟩

/-- C6: at every state reachable from an invariant-satisfying state by
register and deregister operations, every connection identifier in the
sse:connections live set has a corresponding metadata record; and a
single deregistration removes the live-set entry and the metadata record
together. -/
theorem registry_invariant :
    (∀ st st' : Store, RegistryInv st →
      Relation.ReflTransGen RegistryStep st st' → RegistryInv st') ∧
    (∀ (st : Store) (connId userId : String) (now : Nat),
      connId ∉ (cleanupConnection st connId userId now).connections ∧
      (cleanupConnection st connId userId now).connMeta connId = none) := by
  constructor
  · intro st st' hinv hrt
    induction hrt with
    | refl => exact hinv
    | tail _ hstep ih =>
      cases hstep with
      | register connId userId now ua => exact registerConnection_inv _ connId userId now ua ih
      | deregister connId userId now => exact cleanupConnection_inv _ connId userId now ih
  · intro st connId userId now
    obtain ⟨hcon, hmeta⟩ := cleanupConnection_registry st connId userId now
    constructor
    · rw [hcon]
      simp [srem, List.mem_filter]
    · rw [hmeta]
      exact Function.update_same ..

/-- C6 witness: the invariant transports across one concrete register
step from the empty store, and a concrete cleanup removes both entries. -/
theorem registry_invariant_witness :
    RegistryInv (registerConnection emptyStore "c1" "u1" 0 "ua") ∧
    "c1" ∉ (cleanupConnection presenceStore "c1" "A" 0).connections ∧
    (cleanupConnection presenceStore "c1" "A" 0).connMeta "c1" = none := by
  refine ⟨?_, (registry_invariant.2 presenceStore "c1" "A" 0).1,
    (registry_invariant.2 presenceStore "c1" "A" 0).2⟩
  refine registry_invariant.1 emptyStore _ ?_
    (Relation.ReflTransGen.single (RegistryStep.register emptyStore "c1" "u1" 0 "ua"))
  intro c hc
  simp [emptyStore] at hc

/-! Typing indicator expiry. -/

/-- C7: a typing_update snapshot lists exactly the users that have an
unexpired typing key in the room, excluding the receiving user; in
particular after a typing indicator is set with a 5-second expiry and not
renewed, any snapshot taken 5 or more seconds later (for example at 6
seconds) no longer lists that user for that room. -/
theorem typingSnapshot_expiry :
    (∀ (st : Store) (now : Nat) (f self uid : String) (name : Name),
      (uid, name) ∈ typingSnapshot st now f self ↔
        uid ≠ self ∧ ∃ en ∈ st.typing,
          en.forum = f ∧ en.user = uid ∧ en.name = name ∧ now < en.expiresAt) ∧
    (∀ (st : Store) (t : Nat) (f a : String) (nm : Name) (self : String) (d : Nat),
      5 ≤ d →
      ∀ p ∈ typingSnapshot (setTypingIndicator st f a nm 5 t) (t + d) f self,
        p.1 ≠ a) := by
  constructor
  · intro st now f self uid name
    unfold typingSnapshot
    rw [List.mem_map]
    constructor
    · rintro ⟨en, hen, heq⟩
      rw [List.mem_filter] at hen
      obtain ⟨hen, hcond⟩ := hen
      simp only [Bool.and_eq_true, beq_iff_eq, bne_iff_ne, decide_eq_true_eq] at hcond
      obtain ⟨⟨hf, hlt⟩, hself⟩ := hcond
      obtain ⟨hu, hn⟩ := Prod.mk.injEq .. ▸ heq
      exact ⟨hu ▸ hself, en, hen, hf, hu, hn, hlt⟩
    · rintro ⟨hself, en, hen, hf, hu, hn, hlt⟩
      refine ⟨en, ?_, by rw [hu, hn]⟩
      rw [List.mem_filter]
      refine ⟨hen, ?_⟩
      simp only [Bool.and_eq_true, beq_iff_eq, bne_iff_ne, decide_eq_true_eq]
      exact ⟨⟨hf, hlt⟩, hu ▸ hself⟩
  · intro st t f a nm self d hd p hp
    unfold typingSnapshot at hp
    rw [List.mem_map] at hp
    obtain ⟨en, hen, heq⟩ := hp
    rw [List.mem_filter] at hen
    obtain ⟨hen, hcond⟩ := hen
    simp only [Bool.and_eq_true, beq_iff_eq, bne_iff_ne, decide_eq_true_eq] at hcond
    obtain ⟨⟨hf, hlt⟩, _⟩ := hcond
    intro hpa
    have hua : en.user = a := by
      have : p.1 = en.user := by rw [← heq]
      rw [← this, hpa]
    unfold setTypingIndicator at hen
    rcases List.mem_cons.mp hen with hnew | hold
    · rw [hnew] at hlt
      simp at hlt
      omega
    · rw [List.mem_filter] at hold
      obtain ⟨_, hpred⟩ := hold
      simp only [decide_not, Bool.not_eq_true', decide_eq_false_iff_not] at hpred
      exact hpred ⟨hf, hua⟩

/-- Concrete store in which user B is typing in room r1 with a key that
expires at time 4. -/
def typingStore : Store :=
  { emptyStore with
    typing := [{ forum := "r1", user := "B", name := "bob".toList, expiresAt := 4 }] }

/-- C7 witness: at time 2 user B is listed in the r1 snapshot sent to
user A, and after user A sets a 5-second indicator at time 10, a snapshot
at time 16 no longer lists A. -/
theorem typingSnapshot_expiry_witness :
    ("B", "bob".toList) ∈ typingSnapshot typingStore 2 "r1" "A" ∧
    (∀ p ∈ typingSnapshot (setTypingIndicator typingStore "r1" "A" "alice".toList 5 10)
        16 "r1" "C", p.1 ≠ "A") := by
  constructor
  · refine (typingSnapshot_expiry.1 typingStore 2 "r1" "A" "B" "bob".toList).2 ?_
    exact ⟨by decide,
      { forum := "r1", user := "B", name := "bob".toList, expiresAt := 4 },
      by decide, rfl, rfl, rfl, by decide⟩
  · exact typingSnapshot_expiry.2 typingStore 10 "r1" "A" "alice".toList "C" 6 (by decide)

/-! Duplicate display-name handling in user creation. -/

/-- C9 counterexample: creating a user from the request name between
angle brackets stores the display name with its inner spaces intact;
a second creation request whose raw display name is identical (hence
equal ignoring case) to that stored name is then accepted with 200 and
mutates the users set, because the duplicate scan compares the sanitized
request name, whose surrounding spaces have been trimmed away. -/
theorem handleCreateUser_counterexample :
    ((Auth.handleCreateUser emptyStore (some "< ab >".toList) "u0" 0).2.users "u0").map
        (fun u => Auth.lowerName u.displayName) =
      some (Auth.lowerName " ab ".toList) ∧
    (Auth.handleCreateUser (Auth.handleCreateUser emptyStore (some "< ab >".toList) "u0" 0).2
        (some " ab ".toList) "u1" 1).1.status = 200 ∧
    (Auth.handleCreateUser (Auth.handleCreateUser emptyStore (some "< ab >".toList) "u0" 0).2
        (some " ab ".toList) "u1" 1).2.usersSet ≠
      (Auth.handleCreateUser emptyStore (some "< ab >".toList) "u0" 0).2.usersSet := by
  decide

/-- C9 (amended): for every user-creation request whose sanitized display
name (trimmed, with the angle brackets removed) equals, ignoring letter
case, the display name of some already-stored user, and whose trimmed
display name has between 2 and 50 characters, handleCreateUser returns
409 with error Display name already taken and mutates nothing. -/
theorem handleCreateUser_duplicate_rejected (st : Store) (raw : Name)
    (newId : String) (now : Nat)
    (h2 : 2 ≤ (Auth.jsTrim raw).length) (h50 : (Auth.jsTrim raw).length ≤ 50)
    (hdup : ∃ uid ∈ st.usersSet,
      (st.users uid).map (fun u => Auth.lowerName u.displayName) =
        some (Auth.lowerName (Auth.sanitizeName raw))) :
    Auth.handleCreateUser st (some raw) newId now =
      ({ status := 409, error := some "Display name already taken" }, st) := by
  have h0 : ¬ (Auth.jsTrim raw).length = 0 := by omega
  have h1 : ¬ (Auth.jsTrim raw).length < 2 := by omega
  have h3 : ¬ 50 < (Auth.jsTrim raw).length := by omega
  have hdb : Auth.duplicateName st (Auth.sanitizeName raw) = true := by
    rw [Auth.duplicateName, List.any_eq_true]
    obtain ⟨uid, hmem, hmap⟩ := hdup
    refine ⟨uid, hmem, ?_⟩
    cases h : st.users uid with
    | none => rw [h] at hmap; simp at hmap
    | some u =>
      rw [h] at hmap
      simp at hmap
      change (Auth.lowerName u.displayName == Auth.lowerName (Auth.sanitizeName raw)) = true
      rw [beq_iff_eq]
      exact hmap
  simp [Auth.handleCreateUser, h0, h1, h3, hdb]

/-- Concrete store holding one user with display name ab. -/
def dupStore : Store :=
  { emptyStore with
    usersSet := ["u0"]
    users := fun uid =>
      if uid = "u0" then
        some { id := "u0", displayName := "ab".toList, isOnline := true,
               lastActive := 0, discussionsJoined := [] }
      else none }

/-- C9 witness: a request for the name AB against a store containing the
user ab is rejected with 409 and the store is unchanged. -/
theorem handleCreateUser_duplicate_rejected_witness :
    Auth.handleCreateUser dupStore (some "AB".toList) "u1" 0 =
      ({ status := 409, error := some "Display name already taken" }, dupStore) :=
  handleCreateUser_duplicate_rejected dupStore "AB".toList "u1" 0
    (by decide) (by decide) ⟨"u0", by decide, by decide⟩

/-! Idempotence of joining a forum. -/

/-- The forums broadcaster prepends the event to the queue of a
registered connection. -/
theorem broadcastEvent_queues_mem (s : Store) (e : Event) (c : String)
    (hnd : s.connections.Nodup) (hc : c ∈ s.connections) :
    (Forums.broadcastEvent s e).queues c = e :: s.queues c := by
  rw [Forums.broadcastEvent, broadcast_foldl_queues e s.connections s c hnd, if_pos hc]

/-- C10: when the user is already a member of the forum's participant
set, handleJoinForum leaves the participant sets, the user's forum sets,
every queue (hence broadcasts nothing) and every user record unchanged
and still returns 200 with the forum and its unchanged participant count;
and on the non-member to member transition it broadcasts a user_joined
event carrying the incremented count to every registered connection. -/
theorem handleJoinForum_idempotent :
    (∀ (st : Store) (f u : String) (now : Nat) (forum : Forum) (user : User),
      st.forums f = some forum → st.users u = some user →
      u ∈ st.forumParticipants f →
      (Forums.handleJoinForum st f (some u) now).1 =
        { status := 200, error := none,
          forum := some { forum with lastActivity := now },
          participants := (st.forumParticipants f).length } ∧
      (Forums.handleJoinForum st f (some u) now).2.forumParticipants = st.forumParticipants ∧
      (Forums.handleJoinForum st f (some u) now).2.userForums = st.userForums ∧
      (Forums.handleJoinForum st f (some u) now).2.queues = st.queues ∧
      (Forums.handleJoinForum st f (some u) now).2.users = st.users) ∧
    (∀ (st : Store) (f u : String) (now : Nat) (forum : Forum) (user : User) (c : String),
      st.forums f = some forum → st.users u = some user →
      u ∉ st.forumParticipants f → st.connections.Nodup → c ∈ st.connections →
      (Forums.handleJoinForum st f (some u) now).2.queues c =
        Event.userJoined f u user.displayName ((st.forumParticipants f).length + 1) ::
          st.queues c) := by
  constructor
  · intro st f u now forum user hf hu hmem
    refine ⟨?_, ?_, ?_, ?_, ?_⟩ <;>
      simp [Forums.handleJoinForum, hf, hu, hmem]
  · intro st f u now forum user c hf hu hmem hnd hc
    have hpart : Function.update st.forumParticipants f
        (sadd (st.forumParticipants f) u) f = u :: st.forumParticipants f := by
      rw [Function.update_same, sadd, if_neg hmem]
    by_cases hdj : f ∈ user.discussionsJoined
    · simp only [Forums.handleJoinForum, hf, hu, hmem, hdj, if_true, if_false,
        ite_true, ite_false, if_neg (fun h => hmem h), if_pos hdj]
      rw [hpart, List.length_cons]
      exact broadcastEvent_queues_mem _ _ c hnd hc
    · simp only [Forums.handleJoinForum, hf, hu, hmem, hdj, if_true, if_false,
        ite_true, ite_false, if_neg (fun h => hmem h), if_neg hdj]
      rw [hpart, List.length_cons]
      exact broadcastEvent_queues_mem _ _ c hnd hc

/-- Concrete store for the join scenario: connection c1 is live, forum f1
exists, user A exists and is already a participant of f1. -/
def joinStore : Store :=
  { emptyStore with
    connections := ["c1"]
    forums := fun fid =>
      if fid = "f1" then
        some { id := "f1", title := "t", topic := "g", hostId := "h", lastActivity := 0 }
      else none
    users := fun uid => if uid = "A" then some userA else none
    forumParticipants := fun fid => if fid = "f1" then ["A"] else [] }

/-- The same store with an empty participant set, for the transition
case. -/
def joinStore2 : Store :=
  { joinStore with forumParticipants := fun _ => [] }

/-- C10 witness: joining again as an existing member returns 200 with the
unchanged count of 1 and leaves all queues untouched, while a first-time
join broadcasts the user_joined event with count 1 onto the registered
connection's queue. -/
theorem handleJoinForum_idempotent_witness :
    (Forums.handleJoinForum joinStore "f1" (some "A") 7).1 =
      { status := 200, error := none,
        forum := some { id := "f1", title := "t", topic := "g", hostId := "h",
                        lastActivity := 7 },
        participants := 1 } ∧
    (Forums.handleJoinForum joinStore "f1" (some "A") 7).2.queues = joinStore.queues ∧
    (Forums.handleJoinForum joinStore2 "f1" (some "A") 7).2.queues "c1" =
      [Event.userJoined "f1" "A" userA.displayName 1] := by
  have h1 := handleJoinForum_idempotent.1 joinStore "f1" "A" 7
    { id := "f1", title := "t", topic := "g", hostId := "h", lastActivity := 0 }
    userA (by decide) (by decide) (by decide)
  have h2 := handleJoinForum_idempotent.2 joinStore2 "f1" "A" 7
    { id := "f1", title := "t", topic := "g", hostId := "h", lastActivity := 0 }
    userA "c1" (by decide) (by decide) (by decide) (by decide) (by decide)
  exact ⟨h1.1, h1.2.2.2.1, h2⟩

end ForumApp
